import Mathlib

/-
Shallow embedding of `src/Week2_3-Data-Structure-I/templates/cpp-skiplist-template/dscl/skiplist.h`
(namespace `skiplist`, `template <typename Key, class Comparator> class SkipList`).

Modelling conventions:

* Keys are `Int`; the implemented code paths compare keys only with the raw
  `<` and `==` operators (the injected `Comparator` is consulted solely by the
  helper `Equal`, which no implemented path calls), so the comparator is not a
  state component.
* Nodes live in an arena (`SkipState.nodes`); a `Node*` is an `Option NodeId`
  (`none` = `nullptr`).  Node 0 is the `head_` sentinel allocated by the
  constructor; nodes are allocated by appending, and the code never frees.
* `Node::next_` is a `std::vector<Node*>` that the C++ constructor indexes
  without ever resizing, and the public operations index it with levels from
  0 up to `kMaxHeight` inclusive.  Every such access is out of bounds for the
  real vector; the model gives all of them benign flat-array semantics by
  allotting each node `kMaxHeight + 1` slots initialised to null.  The height
  each node was created with is recorded in `Node.height`, and the bounds
  analysis is carried out separately on an instrumented access log
  (`containsAcc`).
* Genuinely unmodellable undefined behaviour is made explicit with `Except`:
  dereferencing a null `Node*` (`Err.nullDeref`), following an arena-invalid
  reference (`Err.dangling`), and reading a slot of the stack array
  `Node* preNode[kMaxHeight]` that the descent loop never initialised
  (`Err.uninitRead`).  `SkipList::Remove` can also flow off the end of a
  `bool` function with no `return`; the model keeps the mutated state and
  reports the missing return value as `none : Option Bool`.
* While loops are run on fuel (`s.nodes.length` suffices for every acyclic
  state considered here); loop conditions are tested before fuel, so a loop
  that exits immediately never consumes fuel.
* `util/random.h` is not part of the repository sources.  `Random` is
  modelled from the spec: an injected deterministic uniform source,
  `uniform(n) -> integer in [0, n)`, advancing an integer state
  (a multiplicative-congruential step, as in the library the template
  includes).  The constructor seeds it with the literal `114514`.
-/

namespace skiplist

/-- A `Node*` that is known non-null: an index into the arena. -/
abbrev NodeId := Nat

/-- `enum { kMaxHeight = 12 };` -/
def kMaxHeight : Nat := 12

/-- Model of `struct SkipList::Node`: the stored key, the height the node was
created with (`Node(const Key& k, int height)`), and the `next_` link array,
given `kMaxHeight + 1` benign slots (see the header comment). -/
structure Node where
  key : Int
  height : Nat
  next : List (Option NodeId)
deriving Repr, DecidableEq

/-- `Node(const Key& k, int height)`: all links start as `nullptr`. -/
def Node.mkNode (k : Int) (height : Nat) : Node :=
  { key := k, height := height, next := List.replicate (kMaxHeight + 1) none }

/-- `Node* Next(int n) { return next_[n]; }` (benign flat-array semantics). -/
def Node.NextLink (nd : Node) (n : Nat) : Option NodeId :=
  nd.next.getD n none

/-- `void SetNext(int n, Node* x) { next_[n] = x; }` -/
def Node.SetNext (nd : Node) (n : Nat) (x : Option NodeId) : Node :=
  { nd with next := nd.next.set n x }

/-- Modelled from the spec: `util/random.h` is absent from the sources; the
spec treats the generator as an injected deterministic capability.  One step
of the state: a multiplicative-congruential update. -/
def randomNext (s : Nat) : Nat := (s * 16807) % 2147483647

/-- Modelled from the spec: `uniform(n) -> integer in [0, n)`, returning the
draw together with the advanced generator state (`Random::Uniform`). -/
def uniformDraw (s : Nat) (n : Nat) : Nat × Nat :=
  let s2 := randomNext s
  (s2 % n, s2)

/-- The loop of `SkipList::RandomHeight`:
`while (rnd_.Uniform(4) == 0 && level < kMaxHeight) level += 1;`.
Arguments: current `level`, generator state, fuel.  The condition is tested
before fuel, and each test draws once (C++ `&&` always evaluates its left
operand). -/
def randomHeightLoop : Nat → Nat → Nat → Nat × Nat
  | level, rnd, fuel =>
    let p := uniformDraw rnd 4
    if p.1 = 0 ∧ level < kMaxHeight then
      match fuel with
      | 0 => (level, p.2)
      | f + 1 => randomHeightLoop (level + 1) p.2 f
    else (level, p.2)

/-- `int SkipList::RandomHeight()` (lines 163–171): starts at `level = 1`;
returns the resulting height together with the advanced generator state. -/
def randomHeight (rnd : Nat) : Nat × Nat :=
  randomHeightLoop 1 rnd kMaxHeight

/-- Range invariant of the `RandomHeight` loop: if the entering level is in
`[1, kMaxHeight]`, so is the result, for any fuel and generator state. -/
theorem randomHeightLoop_range (fuel : Nat) :
    ∀ (level rnd : Nat), 1 ≤ level → level ≤ kMaxHeight →
      1 ≤ (randomHeightLoop level rnd fuel).1 ∧
        (randomHeightLoop level rnd fuel).1 ≤ kMaxHeight := by
  induction fuel with
  | zero =>
    intro level rnd h1 h2
    rw [randomHeightLoop]
    by_cases hc : (uniformDraw rnd 4).1 = 0 ∧ level < kMaxHeight
    · simp only [if_pos hc]
      exact ⟨h1, h2⟩
    · simp only [if_neg hc]
      exact ⟨h1, h2⟩
  | succ f ih =>
    intro level rnd h1 h2
    rw [randomHeightLoop]
    by_cases hc : (uniformDraw rnd 4).1 = 0 ∧ level < kMaxHeight
    · simp only [if_pos hc]
      exact ih (level + 1) (uniformDraw rnd 4).2 (by omega) hc.2
    · simp only [if_neg hc]
      exact ⟨h1, h2⟩

/-- **C9.** `RandomHeight` always returns an integer in `[1, height_cap]`
with `height_cap = kMaxHeight = 12`: it starts at 1, increments only while
the uniform draw from `{0,1,2,3}` equals 0 and the value is below the cap,
and never exceeds the cap — for every state of the injected uniform-random
source. -/
theorem c9_random_height_range (rnd : Nat) :
    kMaxHeight = 12 ∧
      1 ≤ (randomHeight rnd).1 ∧ (randomHeight rnd).1 ≤ kMaxHeight :=
  ⟨rfl, randomHeightLoop_range kMaxHeight 1 rnd (by decide) (by decide)⟩

/-- Model of the `SkipList` aggregate: the node arena (index 0 is `head_`),
`max_height_`, and the `rnd_` generator state. -/
structure SkipState where
  nodes : List Node
  maxHeight : Nat
  rnd : Nat
deriving Repr, DecidableEq

/-- The arena index of the `head_` sentinel, allocated first by the
constructor. -/
def headId : NodeId := 0

/-- The constructor (line 18):
`SkipList(Comparator cmp) : compare_(cmp), head_(new Node(0, kMaxHeight)), rnd_(Random(114514)), max_height_(1) {}`. -/
def newList : SkipState :=
  { nodes := [Node.mkNode 0 kMaxHeight], maxHeight := 1, rnd := 114514 }

/-- Dereference an arena reference. -/
def getNode (s : SkipState) (i : NodeId) : Option Node :=
  s.nodes[i]?

/-- `i->Next(n)` for a non-null reference `i`. -/
def nextOf (s : SkipState) (i : NodeId) (n : Nat) : Option NodeId :=
  match getNode s i with
  | some nd => nd.NextLink n
  | none => none

/-- `i->key` for a non-null reference `i` (0 when dangling; dangling
references never arise in the states considered). -/
def keyOfD (s : SkipState) (i : NodeId) : Int :=
  match getNode s i with
  | some nd => nd.key
  | none => 0

/-- The height the node behind reference `i` was created with. -/
def heightOfD (s : SkipState) (i : NodeId) : Nat :=
  match getNode s i with
  | some nd => nd.height
  | none => 0

/-- `i->SetNext(n, x)`. -/
def setNextOf (s : SkipState) (i : NodeId) (n : Nat) (x : Option NodeId) : SkipState :=
  match getNode s i with
  | some nd => { s with nodes := s.nodes.set i (nd.SetNext n x) }
  | none => s

/-- `NewNode(key, height)`: append to the arena, returning the fresh
reference. -/
def alloc (s : SkipState) (nd : Node) : SkipState × NodeId :=
  ({ s with nodes := s.nodes ++ [nd] }, s.nodes.length)

/-- The undefined-behaviour events the model makes explicit. -/
inductive Err where
  | nullDeref
  | dangling
  | uninitRead
  | fuel
deriving Repr, DecidableEq

/-- The inner loop of the shared descent
(`while (start->Next(height) != nullptr && start->Next(height)->key < key) start = start->Next(height);`),
run at one level on fuel. -/
def advance (s : SkipState) (key : Int) (lvl : Nat) : Nat → NodeId → Except Err NodeId
  | fuel, cur =>
    match nextOf s cur lvl with
    | none => Except.ok cur
    | some j =>
      match getNode s j with
      | none => Except.error Err.dangling
      | some nd =>
        if nd.key < key then
          match fuel with
          | 0 => Except.error Err.fuel
          | f + 1 => advance s key lvl f j
        else Except.ok cur

/-- Functional update of the local `Node* preNode[kMaxHeight]` array
(benign flat-array semantics; a slot never written stays `none`,
modelling an uninitialised stack slot). -/
def setPre (pre : Nat → Option NodeId) (i : Nat) (v : NodeId) : Nat → Option NodeId :=
  fun m => if m = i then some v else pre m

/-- The level-descending search loop shared by `Insert` and `Remove`
(`for (int height = max_height_; height >= 1; height--) { ...advance...; preNode[height] = start; }`),
descending from `lvl` down to level 1 and recording the per-level
predecessor. -/
def descent (s : SkipState) (key : Int) :
    Nat → NodeId → (Nat → Option NodeId) → Except Err (NodeId × (Nat → Option NodeId))
  | 0, cur, pre => Except.ok (cur, pre)
  | lvl + 1, cur, pre =>
    match advance s key (lvl + 1) s.nodes.length cur with
    | Except.error e => Except.error e
    | Except.ok cur2 => descent s key lvl cur2 (setPre pre (lvl + 1) cur2)

/-- The same descent without predecessor recording, as run by `Contains`
(`for (int height = kMaxHeight; height >= 1; height--) { ...advance...; }`). -/
def descentPos (s : SkipState) (key : Int) : Nat → NodeId → Except Err NodeId
  | 0, cur => Except.ok cur
  | lvl + 1, cur =>
    match advance s key (lvl + 1) s.nodes.length cur with
    | Except.error e => Except.error e
    | Except.ok cur2 => descentPos s key lvl cur2

/-- `bool SkipList::Contains(const Key& key)` (lines 239–252): descend from
`kMaxHeight`, hop once along level 0, and compare. -/
def contains (s : SkipState) (key : Int) : Except Err Bool :=
  match descentPos s key kMaxHeight headId with
  | Except.error e => Except.error e
  | Except.ok cur =>
    match nextOf s cur 0 with
    | none => Except.ok false
    | some j =>
      match getNode s j with
      | none => Except.error Err.dangling
      | some nd => Except.ok (nd.key == key)

/-- The growth loop of `Insert` (lines 196–203):
`for (int i = max_height_ + 1; i <= random_height; i++) head_->SetNext(i, NewNode(key, i));`.
Arguments: the key, the current loop index `i`, the remaining iteration
count, the state. -/
def growLoop (key : Int) : Nat → Nat → SkipState → SkipState
  | _, 0, s => s
  | i, c + 1, s =>
    let a := alloc s (Node.mkNode key i)
    growLoop key (i + 1) c (setNextOf a.1 headId i (some a.2))

/-- The splice loop of `Insert` (lines 205–209):
`for (int i = 1; i <= max_height_; i++) { Node* newNode = NewNode(key, i); newNode->SetNext(i, preNode[i]->Next(i)); preNode[i]->SetNext(i, newNode); }`.
Reading an uninitialised `preNode` slot is undefined behaviour. -/
def spliceLoop (key : Int) (pre : Nat → Option NodeId) :
    Nat → Nat → SkipState → Except Err SkipState
  | _, 0, s => Except.ok s
  | i, c + 1, s =>
    match pre i with
    | none => Except.error Err.uninitRead
    | some p =>
      let a := alloc s (Node.mkNode key i)
      let s2 := setNextOf a.1 a.2 i (nextOf a.1 p i)
      let s3 := setNextOf s2 p i (some a.2)
      spliceLoop key pre (i + 1) c s3

/-- The tail of `Insert` after the duplicate check (lines 194–210): draw a
height, grow the head links and `max_height_` if the draw exceeds it, then
splice one fresh node per level `1..max_height_`. -/
def insertRest (s : SkipState) (key : Int) (pre : Nat → Option NodeId) :
    Except Err SkipState :=
  let hr := randomHeight s.rnd
  let s1 : SkipState := { s with rnd := hr.2 }
  let s2 : SkipState :=
    if hr.1 > s1.maxHeight then
      { growLoop key (s1.maxHeight + 1) (hr.1 - s1.maxHeight) s1 with maxHeight := hr.1 }
    else s1
  spliceLoop key pre 1 s2.maxHeight s2

/-- `void SkipList::Insert(const Key& key)` (lines 173–211): descend from
`max_height_` recording predecessors, hop once along level 0, return if the
successor's key equals `key`, else run `insertRest`. -/
def insert (s : SkipState) (key : Int) : Except Err SkipState :=
  match descent s key s.maxHeight headId (fun _ => none) with
  | Except.error e => Except.error e
  | Except.ok r =>
    match nextOf s r.1 0 with
    | some j =>
      match getNode s j with
      | none => Except.error Err.dangling
      | some nd =>
        if nd.key == key then Except.ok s
        else insertRest s key r.2
    | none => insertRest s key r.2

/-- The unlink loop of `Remove` (lines 233–235):
`for (int i = 1; i <= max_height_; i++) preNode[i]->SetNext(i, start->Next(i));`.
`start` is the level-0 successor found by the descent; when it is `nullptr`
the body dereferences a null pointer. -/
def unlinkLoop (startv : Option NodeId) (pre : Nat → Option NodeId) :
    Nat → Nat → SkipState → Except Err SkipState
  | _, 0, s => Except.ok s
  | i, c + 1, s =>
    match pre i with
    | none => Except.error Err.uninitRead
    | some p =>
      match startv with
      | none => Except.error Err.nullDeref
      | some st =>
        unlinkLoop startv pre (i + 1) c (setNextOf s p i (nextOf s st i))

/-- `bool SkipList::Remove(const Key& key)` (lines 213–236): descend from
`max_height_`, hop once along level 0; if the successor exists and its key
equals `key`, `return false` (sic — the test is the source's); otherwise run
the unlink loop and flow off the end of the `bool` function, reported as a
`none` return value. -/
def remove (s : SkipState) (key : Int) : Except Err (SkipState × Option Bool) :=
  match descent s key s.maxHeight headId (fun _ => none) with
  | Except.error e => Except.error e
  | Except.ok r =>
    match nextOf s r.1 0 with
    | some j =>
      match getNode s j with
      | none => Except.error Err.dangling
      | some nd =>
        if nd.key == key then Except.ok (s, some false)
        else
          match unlinkLoop (some j) r.2 1 s.maxHeight s with
          | Except.error e => Except.error e
          | Except.ok s2 => Except.ok (s2, none)
    | none =>
      match unlinkLoop none r.2 1 s.maxHeight s with
      | Except.error e => Except.error e
      | Except.ok s2 => Except.ok (s2, none)

/-- The chain of node references reachable from link `o` by repeatedly
following level-`lvl` links, on fuel. -/
def chainFrom (s : SkipState) (lvl : Nat) : Nat → Option NodeId → List NodeId
  | 0, _ => []
  | _, none => []
  | f + 1, some i => i :: chainFrom s lvl f (nextOf s i lvl)

/-- The sequence of nodes reachable at level `lvl`, starting from the head
sentinel's level-`lvl` link. -/
def chainAt (s : SkipState) (lvl : Nat) : List NodeId :=
  chainFrom s lvl s.nodes.length (nextOf s headId lvl)

/-- The keys along the level-`lvl` chain. -/
def chainKeys (s : SkipState) (lvl : Nat) : List Int :=
  (chainAt s lvl).map (keyOfD s)

/-- `subseq a b` decides whether `a` is a (not necessarily contiguous)
subsequence of `b`. -/
def subseq : List NodeId → List NodeId → Bool
  | [], _ => true
  | _ :: _, [] => false
  | a :: as, b :: bs => if a = b then subseq as bs else subseq (a :: as) bs

/-- Model of `SkipList::Iterator`: the `node_` and `prevNode_` pointers
(the bound list is passed to the methods that read it). -/
structure Iterator where
  node : Option NodeId
  prevNode : Option NodeId
deriving Repr, DecidableEq

/-- `Iterator(const SkipList* list) : list_(list), node_(list->head_), prevNode_(nullptr)`. -/
def Iterator.make : Iterator :=
  { node := some headId, prevNode := none }

/-- `bool Valid() const { return node_ != nullptr; }` -/
def Iterator.Valid (it : Iterator) : Bool :=
  it.node.isSome

/-- `void SeekToFirst() { prevNode_ = nullptr; node_ = list_->head_; }` -/
def Iterator.SeekToFirst (_it : Iterator) : Iterator :=
  { node := some headId, prevNode := none }

/-- `const Key& key() const { return node_->key; }` (0 on an invalid
iterator; the claims only read it through a valid one). -/
def Iterator.curKey (s : SkipState) (it : Iterator) : Int :=
  match it.node with
  | some i => keyOfD s i
  | none => 0

/-- `advance`, instrumented: additionally logs, for every evaluation of the
loop condition `start->Next(height)`, the pair
`(level accessed, height the accessed node was created with)`. -/
def advanceAcc (s : SkipState) (key : Int) (lvl : Nat) :
    Nat → NodeId → List (Nat × Nat) → Except Err (NodeId × List (Nat × Nat))
  | fuel, cur, log =>
    let log2 := log ++ [(lvl, heightOfD s cur)]
    match nextOf s cur lvl with
    | none => Except.ok (cur, log2)
    | some j =>
      match getNode s j with
      | none => Except.error Err.dangling
      | some nd =>
        if nd.key < key then
          match fuel with
          | 0 => Except.error Err.fuel
          | f + 1 => advanceAcc s key lvl f j log2
        else Except.ok (cur, log2)

/-- `descentPos`, instrumented with the access log. -/
def descentPosAcc (s : SkipState) (key : Int) :
    Nat → NodeId → List (Nat × Nat) → Except Err (NodeId × List (Nat × Nat))
  | 0, cur, log => Except.ok (cur, log)
  | lvl + 1, cur, log =>
    match advanceAcc s key (lvl + 1) s.nodes.length cur log with
    | Except.error e => Except.error e
    | Except.ok r => descentPosAcc s key lvl r.1 r.2

/-- `Contains`, instrumented: the final hop `start = start->Next(0)` is
logged as a level-0 access on the node the descent stopped at. -/
def containsAcc (s : SkipState) (key : Int) :
    Except Err (Bool × List (Nat × Nat)) :=
  match descentPosAcc s key kMaxHeight headId [] with
  | Except.error e => Except.error e
  | Except.ok r =>
    let log2 := r.2 ++ [(0, heightOfD s r.1)]
    match nextOf s r.1 0 with
    | none => Except.ok (false, log2)
    | some j =>
      match getNode s j with
      | none => Except.error Err.dangling
      | some nd => Except.ok (nd.key == key, log2)

/-- A logged link access `(n, h)` — `Next(n)`/`SetNext(n)` on a node created
with height `h` — respects the node's `forward` array exactly when
`n < h`. -/
def levelInBounds (q : Nat × Nat) : Bool :=
  q.1 < q.2

/-- The instrumentation is faithful: dropping the log from `advanceAcc`
gives `advance`. -/
theorem advanceAcc_fst (s : SkipState) (key : Int) (lvl : Nat) :
    ∀ (fuel : Nat) (cur : NodeId) (log : List (Nat × Nat)),
      (advanceAcc s key lvl fuel cur log).map Prod.fst =
        advance s key lvl fuel cur := by
  intro fuel
  induction fuel with
  | zero =>
    intro cur log
    rw [advanceAcc, advance]
    cases hx : nextOf s cur lvl with
    | none => rfl
    | some j =>
      cases hg : getNode s j with
      | none => simp only [hg, Except.map]
      | some nd =>
        by_cases hk : nd.key < key
        · simp only [hg, if_pos hk, Except.map]
        · simp only [hg, if_neg hk, Except.map]
  | succ f ih =>
    intro cur log
    cases hx : nextOf s cur lvl with
    | none =>
      rw [advanceAcc, advance]
      simp only [hx, Except.map]
    | some j =>
      cases hg : getNode s j with
      | none =>
        rw [advanceAcc, advance]
        simp only [hx, hg, Except.map]
      | some nd =>
        by_cases hk : nd.key < key
        · rw [advanceAcc, advance]
          simp only [hx, hg, if_pos hk]
          exact ih j _
        · rw [advanceAcc, advance]
          simp only [hx, hg, if_neg hk, Except.map]

/-- The instrumentation is faithful: dropping the log from `descentPosAcc`
gives `descentPos`. -/
theorem descentPosAcc_fst (s : SkipState) (key : Int) :
    ∀ (lvl : Nat) (cur : NodeId) (log : List (Nat × Nat)),
      (descentPosAcc s key lvl cur log).map Prod.fst =
        descentPos s key lvl cur := by
  intro lvl
  induction lvl with
  | zero => intro cur log; rfl
  | succ l ih =>
    intro cur log
    have h := advanceAcc_fst s key (l + 1) s.nodes.length cur log
    cases ha : advanceAcc s key (l + 1) s.nodes.length cur log with
    | error e =>
      rw [ha] at h
      have h2 : advance s key (l + 1) s.nodes.length cur = Except.error e := h.symm
      rw [descentPosAcc, descentPos, ha, h2]
      rfl
    | ok r =>
      rw [ha] at h
      have h2 : advance s key (l + 1) s.nodes.length cur = Except.ok r.1 := h.symm
      rw [descentPosAcc, descentPos, ha, h2]
      exact ih r.1 r.2

/-- The instrumentation is faithful: dropping the log from `containsAcc`
gives `contains`. -/
theorem containsAcc_fst (s : SkipState) (key : Int) :
    (containsAcc s key).map Prod.fst = contains s key := by
  have h := descentPosAcc_fst s key kMaxHeight headId []
  cases hd : descentPosAcc s key kMaxHeight headId [] with
  | error e =>
    rw [hd] at h
    have h2 : descentPos s key kMaxHeight headId = Except.error e := h.symm
    rw [containsAcc, contains, hd, h2]
    rfl
  | ok r =>
    rw [hd] at h
    have h2 : descentPos s key kMaxHeight headId = Except.ok r.1 := h.symm
    rw [containsAcc, contains, hd, h2]
    cases hx : nextOf s r.1 0 with
    | none => simp only [hx, Except.map]
    | some j =>
      cases hg : getNode s j with
      | none => simp only [hx, hg, Except.map]
      | some nd => simp only [hx, hg, Except.map]

/-- One public call, for whole-run determinism statements. -/
inductive Op where
  | insOp (k : Int)
  | remOp (k : Int)
  | conOp (k : Int)
deriving Repr, DecidableEq

/-- Perform one public call on the list state. -/
def step (s : SkipState) : Op → Except Err SkipState
  | Op.insOp k => insert s k
  | Op.remOp k =>
    match remove s k with
    | Except.error e => Except.error e
    | Except.ok r => Except.ok r.1
  | Op.conOp k =>
    match contains s k with
    | Except.error e => Except.error e
    | Except.ok _ => Except.ok s

/-- Run a sequence of public calls. -/
def run (s : SkipState) : List Op → Except Err SkipState
  | [] => Except.ok s
  | op :: ops =>
    match step s op with
    | Except.error e => Except.error e
    | Except.ok s2 => run s2 ops

/-- A well-formed one-element list: the key 5 in a height-1 node linked at
level 0 (`head_->next_[0]`), `max_height_ = 1`. -/
def listWith5 : SkipState :=
  { nodes := [(Node.mkNode 0 kMaxHeight).SetNext 0 (some 1), Node.mkNode 5 1],
    maxHeight := 1, rnd := 114514 }

/-- A well-formed one-element list: the key 7 in a height-2 node linked at
levels 0 and 1, `max_height_ = 2`. -/
def listWith7H2 : SkipState :=
  { nodes := [((Node.mkNode 0 kMaxHeight).SetNext 0 (some 1)).SetNext 1 (some 1),
              Node.mkNode 7 2],
    maxHeight := 2, rnd := 114514 }

/-- A well-formed three-element list: level-0 chain 5, 7, 9 with 7 in a
height-2 node also linked at level 1; `max_height_ = 2`.  The generator
state 1 makes the next height draw come out 1. -/
def list579 : SkipState :=
  { nodes := [((Node.mkNode 0 kMaxHeight).SetNext 0 (some 1)).SetNext 1 (some 2),
              (Node.mkNode 5 1).SetNext 0 (some 2),
              (Node.mkNode 7 2).SetNext 0 (some 3),
              Node.mkNode 9 1],
    maxHeight := 2, rnd := 1 }

/-- **C1.** The claim says `Remove(key)` returns true when a node comparing
equal to `key` is found (and removes it).  In the code the found-key test is
inverted: on the list holding exactly the key 5 — where `Contains(5)` is
true — `Remove(5)` returns `false` and leaves the state completely
unchanged. -/
theorem c1_remove_present_returns_false :
    contains listWith5 5 = Except.ok true ∧
      remove listWith5 5 = Except.ok (listWith5, some false) :=
  ⟨rfl, rfl⟩

/-- **C2.** The claim says `Remove` of an absent key returns false with no
structural change.  In the code the inverted test sends the absent-key case
into the unlink loop: on the empty list `Remove(5)` dereferences the null
level-0 successor, and on the list holding only 5 `Remove(7)` runs the loop
and then flows off the end of the `bool` function without returning a value
(the `none` component). -/
theorem c2_remove_absent_misbehaves :
    remove newList 5 = Except.error Err.nullDeref ∧
      remove listWith5 7 = Except.ok (listWith5, none) :=
  ⟨rfl, rfl⟩

/-- **C3.** The claim says inserting distinct keys into a fresh list makes
`Contains` return true for each.  Already for one key it fails: on the fresh
list (constructor seed 114514; the first height draw is 1) `Insert(5)`
completes, but the node is spliced only at level 1 — level 0 is never
written — so `Contains(5)` returns false. -/
theorem c3_insert_then_contains_false :
    (match insert newList 5 with
     | Except.ok t => contains t 5
     | Except.error e => Except.error e) = Except.ok false :=
  rfl

/-- **C4.** The claim says that after every operation the level-1 node
sequence is a subsequence of the level-0 sequence.  After `Insert(5)` on the
fresh list the level-1 chain holds the new node while the level-0 chain is
empty, so the subsequence invariant fails. -/
theorem c4_level1_not_subseq_level0 :
    (match insert newList 5 with
     | Except.ok t => Except.ok (subseq (chainAt t 1) (chainAt t 0))
     | Except.error e => Except.error e) = Except.ok false :=
  rfl

/-- **C6.** The claim says every `Next(n)`/`SetNext(n)` issued by the public
operations satisfies `n <` the accessed node's creation height.  Logging the
accesses of `Contains(5)` on the fresh list refutes it: the descent starts
at level `kMaxHeight = 12` on the head, which was created with height 12
(valid level indices 0..11), so the log contains the out-of-range access
`(12, 12)` and not all logged accesses are in bounds. -/
theorem c6_out_of_range_link_access :
    (match containsAcc newList 5 with
     | Except.ok p => Except.ok (p.2.all levelInBounds)
     | Except.error e => Except.error e) = Except.ok false ∧
      (match containsAcc newList 5 with
       | Except.ok p => Except.ok (p.2.contains (12, 12))
       | Except.error e => Except.error e) = Except.ok true :=
  ⟨rfl, rfl⟩

/-- **C7.** The claim says `seek_to_first()` on an empty list leaves the
iterator invalid, and on any list positions it on a real node, never the
head sentinel.  In the code `SeekToFirst` sets `node_ = list_->head_`, so on
the empty fresh list the iterator reports `Valid() = true` while sitting on
the head sentinel. -/
theorem c7_seek_to_first_valid_on_empty :
    chainAt newList 0 = [] ∧
      (Iterator.SeekToFirst Iterator.make).Valid = true ∧
      (Iterator.SeekToFirst Iterator.make).node = some headId :=
  ⟨rfl, rfl, rfl⟩

/-- **C8.** The claim says `max_height_` tracks the greatest occupied level
and that `Remove` shrinks it when it empties the topmost occupied level(s).
On the list holding only the key 7 in a height-2 node, `Remove(5)` (absent
key) unlinks the node from level 1 — emptying the topmost occupied level,
with only level 0 still occupied — yet `max_height_` stays 2, and the call
produces no return value.  `Remove` contains no `max_height_` update at
all. -/
theorem c8_max_height_not_shrunk :
    (match remove listWith7H2 5 with
     | Except.ok r => Except.ok (r.1.maxHeight, chainAt r.1 1, chainAt r.1 0, r.2)
     | Except.error e => Except.error e) = Except.ok (2, [], [1], none) :=
  rfl

/-- **C10.** The constructor seeds the generator with the literal 114514 and
the embedding is pure, so two independently constructed lists agree on every
run: same drawn heights, same final structure.  (The generator itself is
modelled from the spec, `util/random.h` not being part of the sources.) -/
theorem c10_two_run_determinism (l1 l2 : SkipState) (ops : List Op)
    (h1 : l1 = newList) (h2 : l2 = newList) :
    l1.rnd = 114514 ∧ run l1 ops = run l2 ops := by
  subst h1
  subst h2
  exact ⟨rfl, rfl⟩

/-- Instance of C10 at a concrete call sequence. -/
theorem c10_two_run_determinism_witness :
    newList.rnd = 114514 ∧
      run newList [Op.insOp 5, Op.conOp 5] = run newList [Op.insOp 5, Op.conOp 5] :=
  c10_two_run_determinism newList newList [Op.insOp 5, Op.conOp 5] rfl rfl

/-- Dropping the recorded predecessor vector from `descent` gives
`descentPos`: the two loops move identically. -/
theorem descent_map_fst (s : SkipState) (key : Int) :
    ∀ (lvl : Nat) (cur : NodeId) (pre : Nat → Option NodeId),
      (descent s key lvl cur pre).map Prod.fst = descentPos s key lvl cur := by
  intro lvl
  induction lvl with
  | zero => intro cur pre; rfl
  | succ l ih =>
    intro cur pre
    cases ha : advance s key (l + 1) s.nodes.length cur with
    | error e =>
      rw [descent, descentPos, ha]
      rfl
    | ok cur2 =>
      rw [descent, descentPos, ha]
      exact ih cur2 _

/-- When every head link strictly above `max_height_` (up to `kMaxHeight`)
is null, starting the descent above `max_height_` does not move the cursor:
the position after descending from `max_height_ + d` equals the one after
descending from `max_height_`. -/
theorem descentPos_idle (s : SkipState) (key : Int)
    (hq : ∀ L, L ≤ kMaxHeight → s.maxHeight < L → nextOf s headId L = none) :
    ∀ d, s.maxHeight + d ≤ kMaxHeight →
      descentPos s key (s.maxHeight + d) headId =
        descentPos s key s.maxHeight headId := by
  intro d
  induction d with
  | zero => intro _; rfl
  | succ n ih =>
    intro hle
    have h1 : nextOf s headId (s.maxHeight + n + 1) = none :=
      hq _ hle (by omega)
    have h2 : advance s key (s.maxHeight + n + 1) s.nodes.length headId =
        Except.ok headId := by
      rw [advance, h1]
    have h3 : descentPos s key (s.maxHeight + n + 1) headId =
        descentPos s key (s.maxHeight + n) headId := by
      rw [descentPos, h2]
    exact h3.trans (ih (by omega))

/-- **C5 (amended).** For a list whose head links are null strictly above
`max_height_` (as any state satisfying the spec's invariants is) with
`max_height_ ≤ kMaxHeight`, and a key that `Contains` reports present,
`Insert` returns with the state completely unchanged — in particular the
observable set of `Contains` results is unchanged.  (For a key that merely
sits in the level-0 chain without being detected by `Contains`, the claim
fails; see the counterexample.) -/
theorem c5_insert_detected_present_is_noop (s : SkipState) (key : Int)
    (hq : ∀ L, L ≤ kMaxHeight → s.maxHeight < L → nextOf s headId L = none)
    (hm : s.maxHeight ≤ kMaxHeight)
    (hc : contains s key = Except.ok true) :
    insert s key = Except.ok s := by
  rw [contains] at hc
  cases hdp : descentPos s key kMaxHeight headId with
  | error e =>
    rw [hdp] at hc
    simp at hc
  | ok cur =>
    rw [hdp] at hc
    dsimp only at hc
    cases hnx : nextOf s cur 0 with
    | none =>
      rw [hnx] at hc
      simp at hc
    | some j =>
      rw [hnx] at hc
      dsimp only at hc
      cases hgn : getNode s j with
      | none =>
        rw [hgn] at hc
        simp at hc
      | some nd =>
        rw [hgn] at hc
        simp only [Except.ok.injEq] at hc
        -- hc : (nd.key == key) = true
        have hcov : s.maxHeight + (kMaxHeight - s.maxHeight) = kMaxHeight :=
          Nat.add_sub_cancel' hm
        have hidle := descentPos_idle s key hq (kMaxHeight - s.maxHeight)
          (le_of_eq hcov)
        rw [hcov] at hidle
        have hdm : descentPos s key s.maxHeight headId = Except.ok cur :=
          hidle.symm.trans hdp
        have hfst := descent_map_fst s key s.maxHeight headId (fun _ => none)
        cases hdd : descent s key s.maxHeight headId (fun _ => none) with
        | error e =>
          rw [hdd] at hfst
          rw [hdm] at hfst
          simp [Except.map] at hfst
        | ok r =>
          rw [hdd] at hfst
          rw [hdm] at hfst
          simp only [Except.map, Except.ok.injEq] at hfst
          -- hfst : r.1 = cur
          rw [insert, hdd]
          simp only [hfst, hnx, hgn, hc, if_true]

/-- Instance of C5 on a concrete well-formed state: the key 5 is present,
`Contains` detects it, and `Insert(5)` leaves the state unchanged. -/
theorem c5_insert_detected_present_is_noop_witness :
    contains listWith5 5 = Except.ok true ∧
      insert listWith5 5 = Except.ok listWith5 :=
  ⟨rfl,
    c5_insert_detected_present_is_noop listWith5 5
      (by
        intro L hL hM
        have hL2 : L ≤ 12 := hL
        have hM2 : 1 < L := hM
        interval_cases L <;> rfl)
      (by decide) rfl⟩

/-- **C5, claim as stated refuted.** On the well-formed list with level-0
chain 5, 7, 9 (7 in a height-2 node), the key 7 is present in the list, yet
`Contains(7)` misses it (the search never walks level 0), so `Insert(7)`
passes the duplicate check, creates two fresh nodes keyed 7, relinks head
levels 1 and 2 — and flips the observable result of `Contains(9)` from true
to false. -/
theorem c5_insert_present_changes_contains :
    (chainKeys list579 0).contains 7 = true ∧
      contains list579 9 = Except.ok true ∧
      (match insert list579 7 with
       | Except.ok t => contains t 9
       | Except.error e => Except.error e) = Except.ok false :=
  ⟨rfl, rfl, rfl⟩

end skiplist
